import Mathlib

/-!
# Verification of the gogotelehash core against its specification

This file gives a shallow embedding, in Lean 4, of the parts of the
gogotelehash repository that the specification talks about:

* the `e3x.NewAddr` address constructor and the hashname derivation it
  relies on (`hashname.PartsFromKeys`, `hashname.FromIntermediates`,
  backed by a full executable SHA-256);
* the `IPv4net_path` priority/demotion logic (`net_path_ipv4.go`);
* the bridge module's token-route tables and its wrapped-transport
  `ReadMessage` forwarding loop;
* the UDP transport's address codec (`MarshalJSON` / `decodeAddress`)
  and `WriteMessage`;
* `peer_t.push_rcv_pkt`, the inbound channel-packet dispatcher.

Go byte slices are modelled as `List Nat` (each element `< 256` where it
matters), Go strings as `List Char`, Go maps either as association lists
or as functions into `Option`, and fallible Go functions as `Except`.
-/

set_option maxRecDepth 4000

namespace Gogotelehash

/-- Go `[]byte` values are modelled as lists of naturals (bytes). -/
abbrev Bytes := List Nat

/-- Go `string` values are modelled as lists of characters. -/
abbrev Str := List Char

/-! ## SHA-256

An executable SHA-256 over byte lists, used by the hashname derivation.
All 32-bit machine arithmetic is `Nat` arithmetic reduced `% 2 ^ 32`.
-/

/-- Addition modulo `2^32`. -/
def add32 (a b : Nat) : Nat := (a + b) % 4294967296

/-- Rotate a 32-bit word right by `n` bit positions. -/
def rotr32 (n x : Nat) : Nat :=
((x >>> n) ||| (x <<< (32 - n))) % 4294967296

/-- Bitwise complement of a 32-bit word. -/
def not32 (x : Nat) : Nat := x ^^^ 4294967295

/-- SHA-256 round constants (FIPS 180-4, in decimal). -/
def shaK : List Nat :=
[1116352408, 1899447441, 3049323471, 3921009573, 961987163,
 1508970993, 2453635748, 2870763221, 3624381080, 310598401,
 607225278, 1426881987, 1925078388, 2162078206, 2614888103,
 3248222580, 3835390401, 4022224774, 264347078, 604807628,
 770255983, 1249150122, 1555081692, 1996064986, 2554220882,
 2821834349, 2952996808, 3210313671, 3336571891, 3584528711,
 113926993, 338241895, 666307205, 773529912, 1294757372,
 1396182291, 1695183700, 1986661051, 2177026350, 2456956037,
 2730485921, 2820302411, 3259730800, 3345764771, 3516065817,
 3600352804, 4094571909, 275423344, 430227734, 506948616,
 659060556, 883997877, 958139571, 1322822218, 1537002063,
 1747873779, 1955562222, 2024104815, 2227730452, 2361852424,
 2428436474, 2756734187, 3204031479, 3329325298]

/-- SHA-256 initial hash state (FIPS 180-4, in decimal). -/
def shaH0 : List Nat :=
[1779033703, 3144134277, 1013904242, 2773480762,
 1359893119, 2600822924, 528734635, 1541459225]

/-- Message-schedule small sigma 0. -/
def shaSig0 (x : Nat) : Nat := (rotr32 7 x) ^^^ (rotr32 18 x) ^^^ (x >>> 3)

/-- Message-schedule small sigma 1. -/
def shaSig1 (x : Nat) : Nat := (rotr32 17 x) ^^^ (rotr32 19 x) ^^^ (x >>> 10)

/-- Compression big sigma 0. -/
def shaBig0 (x : Nat) : Nat := (rotr32 2 x) ^^^ (rotr32 13 x) ^^^ (rotr32 22 x)

/-- Compression big sigma 1. -/
def shaBig1 (x : Nat) : Nat := (rotr32 6 x) ^^^ (rotr32 11 x) ^^^ (rotr32 25 x)

/-- Extend a 16-word block to the full 64-word message schedule
(the fuel argument is the number of words still to append). -/
def shaExtend : Nat → List Nat → List Nat
| 0, w => w
| n + 1, w =>
  let t := w.length
  let nw := add32 (add32 (shaSig1 (w.getD (t - 2) 0)) (w.getD (t - 7) 0))
                  (add32 (shaSig0 (w.getD (t - 15) 0)) (w.getD (t - 16) 0))
  shaExtend n (w ++ [nw])

/-- One SHA-256 compression round on the eight working registers. -/
def shaStep (regs : List Nat) (k w : Nat) : List Nat :=
match regs with
| [ra, rb, rc, rd, re, rf, rg, rh] =>
  let ch := (re &&& rf) ^^^ ((not32 re) &&& rg)
  let maj := (ra &&& rb) ^^^ (ra &&& rc) ^^^ (rb &&& rc)
  let t1 := add32 (add32 (add32 rh (shaBig1 re)) (add32 ch k)) w
  let t2 := add32 (shaBig0 ra) maj
  [add32 t1 t2, ra, rb, rc, add32 rd t1, re, rf, rg]
| other => other

/-- Compress one 16-word block into the running hash state. -/
def shaCompress (h block : List Nat) : List Nat :=
let w := shaExtend 48 block
let regs := (shaK.zip w).foldl (fun r kw => shaStep r kw.1 kw.2) h
(h.zip regs).map (fun p => add32 p.1 p.2)

/-- Big-endian 4-byte encoding of a 32-bit word. -/
def bytesBE4 (n : Nat) : Bytes :=
[(n >>> 24) % 256, (n >>> 16) % 256, (n >>> 8) % 256, n % 256]

/-- Big-endian 8-byte encoding of a 64-bit word. -/
def bytesBE8 (n : Nat) : Bytes :=
[(n >>> 56) % 256, (n >>> 48) % 256, (n >>> 40) % 256, (n >>> 32) % 256,
 (n >>> 24) % 256, (n >>> 16) % 256, (n >>> 8) % 256, n % 256]

/-- SHA-256 padding: append `0x80`, zeros to 56 mod 64, then the
64-bit big-endian bit length. -/
def shaPad (msg : Bytes) : Bytes :=
let l := msg.length
let z := (119 - l % 64) % 64
msg ++ [0x80] ++ List.replicate z 0 ++ bytesBE8 (l * 8)

/-- Group a byte list into big-endian 32-bit words. -/
def toWords : Bytes → List Nat
| b0 :: b1 :: b2 :: b3 :: rest =>
  (((b0 * 256 + b1) * 256 + b2) * 256 + b3) :: toWords rest
| _ => []

/-- Split a byte list into 64-byte chunks (fuel bounds the number of
chunks; it is instantiated with the length of the list). -/
def chunk64F : Nat → Bytes → List Bytes
| 0, _ => []
| _, [] => []
| fuel + 1, x :: xs => ((x :: xs).take 64) :: chunk64F fuel ((x :: xs).drop 64)

/-- Split a byte list into 64-byte chunks. -/
def chunk64 (l : Bytes) : List Bytes := chunk64F l.length l

/-- SHA-256 of a byte list. -/
def sha256 (msg : Bytes) : Bytes :=
let blocks := chunk64 (shaPad msg)
let h := blocks.foldl (fun h b => shaCompress h (toWords b)) shaH0
h.foldr (fun w acc => bytesBE4 w ++ acc) []

/-! ## Hex encoding

Models Go's `encoding/hex` (lower-case output, case-insensitive input).
-/

/-- Lower-case hex digit character for a value below 16. -/
def hexDigitChar (n : Nat) : Char :=
Char.ofNat (if n < 10 then 48 + n else 87 + n)

/-- Hex encoding of a single byte (two characters). -/
def hexEncodeByte (b : Nat) : List Char :=
[hexDigitChar (b / 16 % 16), hexDigitChar (b % 16)]

/-- Hex encoding of a byte list. -/
def hexEncode (bs : Bytes) : Str :=
bs.foldr (fun b acc => hexEncodeByte b ++ acc) []

/-- Value of one hex digit character, if any. -/
def hexDigitVal (c : Char) : Option Nat :=
if '0' ≤ c ∧ c ≤ '9' then some (c.toNat - 48)
else if 'a' ≤ c ∧ c ≤ 'f' then some (c.toNat - 87)
else if 'A' ≤ c ∧ c ≤ 'F' then some (c.toNat - 55)
else none

/-- Hex decoding of a character list; fails on odd length or a
non-hex character, like Go's `hex.DecodeString`. -/
def hexDecode : Str → Option Bytes
| [] => some []
| [_] => none
| c1 :: c2 :: rest => do
  let hi ← hexDigitVal c1
  let lo ← hexDigitVal c2
  let tl ← hexDecode rest
  some ((hi * 16 + lo) :: tl)

/-! ## Hashname derivation and `e3x.NewAddr`

`NewAddr` is embedded from `src/unnamed/part_001`.  The functions of the
`hashname` package it calls are repository code that is not under `src/`,
so they are modelled from the spec (§3): the intermediate for a key is
`SHA256(public_key_bytes)`, a part is the hex of the intermediate, and the
hashname is the rolling SHA-256, over the `(csid, intermediate)` pairs in
ascending csid order, of `seed = SHA256(seed ++ [csid])` followed by
`seed = SHA256(seed ++ intermediate)` starting from the zero (empty) seed.
-/

/-- Cipher-set id: a single byte. -/
abbrev CSID := Nat

/-- `cipherset.Keys`: a map CSID → public key bytes (association list). -/
abbrev Keys := List (CSID × Bytes)

/-- `cipherset.Parts`: a map CSID → hex intermediate (association list). -/
abbrev Parts := List (CSID × Str)

/-- `transports.ResolvedAddr` is opaque to `NewAddr`; an abstract id. -/
abbrev ResolvedAddr := Nat

/-- First-match lookup in a parts map. -/
def lookupPart : Parts → CSID → Option Str
| [], _ => none
| (c, v) :: rest, csid => if c = csid then some v else lookupPart rest csid

/-- Go map assignment `parts[csid] = v` on the association-list model:
replace the first binding of `csid`, or append a new one. -/
def partsSet : Parts → CSID → Str → Parts
| [], csid, v => [(csid, v)]
| (c, w) :: rest, csid, v =>
  if c = csid then (c, v) :: rest else (c, w) :: partsSet rest csid v

/-- Insert a pair into a csid-sorted parts list. -/
def insertSorted (p : CSID × Str) : Parts → Parts
| [] => [p]
| q :: rest => if p.1 ≤ q.1 then p :: q :: rest else q :: insertSorted p rest

/-- Insertion sort of a parts list by ascending csid. -/
def sortParts : Parts → Parts
| [] => []
| p :: rest => insertSorted p (sortParts rest)

/-- Modelled from the spec: `hashname.PartsFromKeys` (not under `src/`).
Each key's part is the hex encoding of its SHA-256 intermediate (§3). -/
def PartsFromKeys (keys : Keys) : Parts :=
keys.map (fun ck => (ck.1, hexEncode (sha256 ck.2)))

/-- Rolling-hash step over sorted `(csid, hex intermediate)` pairs. -/
def rollup : Bytes → Parts → Option Bytes
| seed, [] => some seed
| seed, (csid, hexPart) :: rest =>
  match hexDecode hexPart with
  | none => none
  | some inter =>
    if inter.length = 32 then
      rollup (sha256 ((sha256 (seed ++ [csid])) ++ inter)) rest
    else none

/-- Modelled from the spec: `hashname.FromIntermediates` (not under
`src/`).  Derives the 32-byte hashname from a parts map by the rolling
SHA-256 of §3; fails on an empty map or an invalid intermediate (a part
that is not valid hex for 32 bytes). -/
def FromIntermediates (parts : Parts) : Option Bytes :=
if parts.isEmpty then none else rollup [] (sortParts parts)

/-- `e3x` errors returned by `NewAddr` (from `src/unnamed/part_001`:
`ErrNoKeys`, `ErrNoAddress`) plus the propagated hashname-derivation
error. -/
inductive AddrError where
| errNoKeys
| errNoAddress
| errHashname
deriving DecidableEq

/-- `e3x.Addr` (from `src/unnamed/part_001`). -/
structure Addr where
  hashname : Bytes
  keys : Keys
  parts : Parts
  addrs : List ResolvedAddr
deriving DecidableEq

/-- The merge loop of `NewAddr`: overwrite the caller-supplied parts
with the parts derived from the keys (`addr.parts[csid] = part`). -/
def mergeParts (parts : Parts) (keys : Keys) : Parts :=
(PartsFromKeys keys).foldl (fun acc p => partsSet acc p.1 p.2) parts

/-- `e3x.NewAddr` from `src/unnamed/part_001`.  A `nil` caller parts map
and an empty one coincide in the association-list model. -/
def NewAddr (keys : Keys) (parts : Parts) (addrs : List ResolvedAddr) :
    Except AddrError Addr :=
if keys.length = 0 then .error .errNoKeys
else if addrs.length = 0 then .error .errNoAddress
else
  match FromIntermediates (mergeParts parts keys) with
  | none => .error .errHashname
  | some h => .ok ⟨h, keys, mergeParts parts keys, addrs⟩

/-! ### Lemmas about the parts-map model -/

theorem lookupPart_partsSet_self (ps : Parts) (c : CSID) (v : Str) :
    lookupPart (partsSet ps c v) c = some v := by
  induction ps with
  | nil => simp [partsSet, lookupPart]
  | cons q rest ih =>
    obtain ⟨c0, v0⟩ := q
    by_cases hc : c0 = c
    · simp [partsSet, lookupPart, hc]
    · simp [partsSet, lookupPart, hc, ih]

theorem lookupPart_partsSet_other (ps : Parts) (c c' : CSID) (v : Str)
    (h : c' ≠ c) : lookupPart (partsSet ps c v) c' = lookupPart ps c' := by
  induction ps with
  | nil => simp [partsSet, lookupPart, Ne.symm h]
  | cons q rest ih =>
    obtain ⟨c0, v0⟩ := q
    by_cases hc : c0 = c
    · subst hc
      simp [partsSet, lookupPart, Ne.symm h]
    · by_cases hc' : c0 = c'
      · simp [partsSet, lookupPart, hc, hc', h]
      · simp [partsSet, lookupPart, hc, hc', ih]

theorem lookupPart_foldl_notmem (l : Parts) (ps : Parts) (c : CSID)
    (h : c ∉ l.map Prod.fst) :
    lookupPart (l.foldl (fun acc p => partsSet acc p.1 p.2) ps) c =
      lookupPart ps c := by
  induction l generalizing ps with
  | nil => rfl
  | cons q rest ih =>
    obtain ⟨c0, v0⟩ := q
    simp only [List.map_cons, List.mem_cons] at h
    push_neg at h
    simp only [List.foldl_cons]
    rw [ih _ h.2, lookupPart_partsSet_other _ _ _ _ h.1]

theorem lookupPart_foldl_mem (l : Parts) (ps : Parts) (c : CSID) (v : Str)
    (hnd : (l.map Prod.fst).Nodup) (hmem : (c, v) ∈ l) :
    lookupPart (l.foldl (fun acc p => partsSet acc p.1 p.2) ps) c = some v := by
  induction l generalizing ps with
  | nil => cases hmem
  | cons q rest ih =>
    obtain ⟨c0, v0⟩ := q
    simp only [List.map_cons, List.nodup_cons] at hnd
    rcases List.mem_cons.mp hmem with hhead | htail
    · obtain ⟨rfl, rfl⟩ := Prod.mk.injEq .. ▸ hhead
      simp only [List.foldl_cons]
      rw [lookupPart_foldl_notmem _ _ _ hnd.1, lookupPart_partsSet_self]
    · simp only [List.foldl_cons]
      exact ih _ hnd.2 htail

theorem partsFromKeys_fst (keys : Keys) :
    (PartsFromKeys keys).map Prod.fst = keys.map Prod.fst := by
  simp [PartsFromKeys, List.map_map, Function.comp]

/-- C2: every address built by a successful `NewAddr` satisfies the
invariant `parts[csid] == hex(SHA256(keys[csid]))` for each csid present
in the key map (caller-supplied parts for those csids are overwritten),
and the stored hashname is exactly the hashname derived from the
resulting parts map. -/
theorem newAddr_parts_invariant (keys : Keys) (parts : Parts)
    (addrs : List ResolvedAddr) (a : Addr)
    (hnd : (keys.map Prod.fst).Nodup)
    (h : NewAddr keys parts addrs = .ok a) :
    (∀ csid k, (csid, k) ∈ keys →
      lookupPart a.parts csid = some (hexEncode (sha256 k))) ∧
    FromIntermediates a.parts = some a.hashname := by
  unfold NewAddr at h
  split at h
  · cases h
  split at h
  · cases h
  split at h
  · cases h
  · rename_i h0 h1 hash hFI
    cases h
    constructor
    · intro csid k hk
      show lookupPart (mergeParts parts keys) csid = _
      unfold mergeParts
      refine lookupPart_foldl_mem _ _ _ _ ?_ ?_
      · rw [partsFromKeys_fst]; exact hnd
      · exact List.mem_map.mpr ⟨(csid, k), hk, rfl⟩
    · exact hFI

/-- Witness for `newAddr_parts_invariant` at a concrete input:
one CS3a key `0x3a → [1, 2, 3]`, no caller parts, one address. -/
theorem newAddr_parts_invariant_witness :
    ∃ a, NewAddr [(58, [1, 2, 3])] [] [7] = .ok a ∧
      lookupPart a.parts 58 = some (hexEncode (sha256 [1, 2, 3])) := by
  have hok : (NewAddr [(58, [1, 2, 3])] [] [7]).isOk = true := by decide
  rcases hE : NewAddr [(58, [1, 2, 3])] [] [7] with e | a
  · rw [hE] at hok
    simp [Except.isOk, Except.toBool] at hok
  · refine ⟨a, rfl, ?_⟩
    exact (newAddr_parts_invariant _ _ _ a (by decide) hE).1 58 [1, 2, 3]
      (by decide)

/-- Counterexample to C8 as stated: a non-empty, valid key set with an
empty transport-address list is rejected with `ErrNoAddress`, so
`NewAddr` does not succeed on every input with non-empty valid keys. -/
theorem newAddr_empty_addrs_error :
    NewAddr [(58, [1])] [] [] = .error .errNoAddress := rfl

/-- C8 (amended): `NewAddr` succeeds exactly when the key map is
non-empty, the transport-address list is non-empty, and hashname
derivation from the merged parts succeeds (it fails only with
`ErrNoKeys`, `ErrNoAddress`, or the propagated derivation error). -/
theorem newAddr_success_iff (keys : Keys) (parts : Parts)
    (addrs : List ResolvedAddr) :
    (∃ a, NewAddr keys parts addrs = .ok a) ↔
    (keys ≠ [] ∧ addrs ≠ [] ∧
      ∃ h, FromIntermediates (mergeParts parts keys) = some h) := by
  unfold NewAddr
  rcases keys with _ | ⟨k0, ks⟩
  · simp
  rcases addrs with _ | ⟨a0, ads⟩
  · simp
  cases hFI : FromIntermediates (mergeParts parts (k0 :: ks)) with
  | none => simp [hFI]
  | some h => simp [hFI]

/-! ## `IPv4net_path` (from `src/net_path_ipv4.go`)

The category enum `ip_addr_category` and the counter type
`net_path_priority` are repository code not under `src/`; they are
modelled from the spec: the categories an IPv4 path can report are
loopback, LAN, WAN (plus the unclassified default of the source's
`switch`), and the dynamic priority delta is a plain (unbounded,
per §9 of the spec) integer counter with `Get`/`Add`/`Reset`.
Relay is a separate path type, not an IPv4 category (source comment:
`1 = relay 2 = bridge 3-8 ip`).  The `IP`, `Port` and memoised `hash`
fields play no role in the priority logic and are kept abstract.
-/

/-- Modelled from the spec: `ip_addr_category` (not under `src/`). -/
inductive ip_addr_category where
| ip_localhost
| ip_lan
| ip_wan
| ip_unknown
deriving DecidableEq

/-- `IPv4net_path` (from `src/net_path_ipv4.go`); `priority_delta`
models the `net_path_priority` counter by its integer value. -/
structure IPv4net_path where
  cat : ip_addr_category
  ip : Bytes
  port : Int
  priority_delta : Int
deriving DecidableEq

namespace IPv4net_path

/-- `IPv4net_path.Priority` from `src/net_path_ipv4.go`. -/
def Priority (n : IPv4net_path) : Int :=
match n.cat with
| .ip_localhost => 8 + n.priority_delta
| .ip_lan => 6 + n.priority_delta
| .ip_wan => 4 + n.priority_delta
| _ => 0 + n.priority_delta

/-- `IPv4net_path.Demote` from `src/net_path_ipv4.go`:
`priority_delta.Add(-1)`. -/
def Demote (n : IPv4net_path) : IPv4net_path :=
{ n with priority_delta := n.priority_delta + (-1) }

/-- `IPv4net_path.Break` from `src/net_path_ipv4.go`:
`priority_delta.Add(-3 - n.Priority())`. -/
def Break (n : IPv4net_path) : IPv4net_path :=
{ n with priority_delta := n.priority_delta + (-3 - Priority n) }

/-- `IPv4net_path.ResetPriority` from `src/net_path_ipv4.go`:
`priority_delta.Reset()`. -/
def ResetPriority (n : IPv4net_path) : IPv4net_path :=
{ n with priority_delta := 0 }

/-- `IPv4net_path.SendNatBreaker` from `src/net_path_ipv4.go`:
`return n.cat == ip_wan`. -/
def SendNatBreaker (n : IPv4net_path) : Bool :=
n.cat = .ip_wan

end IPv4net_path

/-- Category base score of an IPv4 path, read off the `switch` in
`IPv4net_path.Priority`. -/
def ipCategoryBase : ip_addr_category → Int
| .ip_localhost => 8
| .ip_lan => 6
| .ip_wan => 4
| .ip_unknown => 0

/-- C4: the priority score of every IPv4 path is its category base plus
the dynamic delta, with bases loopback 8, LAN 6, WAN 4 (relay scores 1
in the source's path taxonomy, but relay is a separate path type, never
a category of an IPv4 path, so that clause is vacuous here; the
unclassified default base is 0). -/
theorem ipv4_priority_eq_base_plus_delta (n : IPv4net_path) :
    n.Priority = ipCategoryBase n.cat + n.priority_delta ∧
    ipCategoryBase .ip_localhost = 8 ∧
    ipCategoryBase .ip_lan = 6 ∧
    ipCategoryBase .ip_wan = 4 := by
  refine ⟨?_, rfl, rfl, rfl⟩
  cases h : n.cat <;> simp [IPv4net_path.Priority, ipCategoryBase, h]

/-- C5: for every IPv4 path and starting delta, `ResetPriority` (the
successful-receive hook) resets the delta to 0, `Demote` (send failure)
decreases it by exactly 1, and `Break` decreases it by exactly
`3 + current priority`, so that immediately after `Break` the path's
priority evaluates to `-3`. -/
theorem ipv4_delta_dynamics (n : IPv4net_path) :
    (n.ResetPriority).priority_delta = 0 ∧
    (n.Demote).priority_delta = n.priority_delta - 1 ∧
    (n.Break).priority_delta = n.priority_delta - (3 + n.Priority) ∧
    (n.Break).Priority = -3 := by
  refine ⟨rfl, by simp [IPv4net_path.Demote]; ring, ?_, ?_⟩
  · simp [IPv4net_path.Break]; ring
  · cases h : n.cat <;>
      simp [IPv4net_path.Break, IPv4net_path.Priority, h] <;> ring

/-- C9: an IPv4 path requests the NAT-breaker keepalive exactly when its
category is WAN; loopback, LAN and unclassified paths never do. -/
theorem ipv4_sendNatBreaker_iff_wan (n : IPv4net_path) :
    n.SendNatBreaker = true ↔ n.cat = .ip_wan := by
  simp [IPv4net_path.SendNatBreaker]

/-! ## Bridge module (from `src/net_path_ipv4.go`, `package bridge`)

The route tables (`map[cipherset.Token]*e3x.Exchange`) are modelled as
functions `Token → Option Exchange`; `*e3x.Exchange` pointers become
`Exchange` values whose `id` stands in for pointer identity, with
`activePath` the abstract address returned by `Exchange.ActivePath()`.
`cipherset.ExtractToken` is cipher-set code not under `src/`; following
the spec (§3: the token is extracted deterministically from the first
bytes of the packet) it is kept as an explicit function parameter.
The wrapped transport's successive reads are modelled as the list of
frames it would yield, each a `(bytes, source address)` pair.
-/

/-- `cipherset.Token`: 16 bytes. -/
abbrev Token := Bytes

/-- An `*e3x.Exchange` as seen by the bridge: pointer identity plus the
address its `ActivePath()` reports. -/
structure Exchange where
  id : Nat
  activePath : Nat
deriving DecidableEq

/-- The bridge `module`'s two token-indexed route tables. -/
structure BridgeModule where
  packetRoutes : Token → Option Exchange
  handshakeRoutes : Token → Option Exchange

namespace BridgeModule

/-- `module.RouteToken` from `src/net_path_ipv4.go`. -/
def RouteToken (mod : BridgeModule) (token : Token) (source : Exchange)
    (target : Option Exchange) : BridgeModule :=
{ packetRoutes := fun t => if t = token then some source else mod.packetRoutes t
  handshakeRoutes := fun t =>
    match target with
    | some tgt => if t = token then some tgt else mod.handshakeRoutes t
    | none => mod.handshakeRoutes t }

/-- `module.on_exchange_closed` from `src/net_path_ipv4.go`: two
sequential deletion sweeps, first over the packet-route table, then
over the (already swept) handshake-route table. -/
def on_exchange_closed (mod : BridgeModule) (x : Exchange) : BridgeModule :=
let pr1 := fun t => if mod.packetRoutes t = some x then none else mod.packetRoutes t
let hr1 := fun t => if mod.packetRoutes t = some x then none else mod.handshakeRoutes t
let pr2 := fun t => if hr1 t = some x then none else pr1 t
let hr2 := fun t => if hr1 t = some x then none else hr1 t
⟨pr2, hr2⟩

end BridgeModule

/-- The `HEAD_LEN=1` handshake sentinel test `buf[0] == 0 && buf[1] == 1`
(out-of-range reads yield a non-byte default so short frames are not
classified as handshakes; the source would panic there, outside the
behaviour under study). -/
def isHandshakeFrame (buf : Bytes) : Bool :=
buf.getD 0 256 = 0 && buf.getD 1 256 = 1

/-- `transport.ReadMessage` of the bridge-wrapped transport (from
`src/net_path_ipv4.go`).  Processes the wrapped transport's frames in
order: a frame whose token has no packet-route entry is returned to the
caller; otherwise the frame is appended to the forward list — paired
with the exchange whose `ActivePath()` the verbatim bytes are written
to: the handshake-route entry when the frame starts with the `0x00 0x01`
sentinel, the packet-route entry otherwise — and the loop continues.
An exhausted frame list models the underlying read blocking or failing
with no frame delivered. -/
def ReadMessage (mod : BridgeModule) (extractToken : Bytes → Token) :
    List (Bytes × Nat) → Option (Bytes × Nat) × List (Bytes × Option Exchange)
| [] => (none, [])
| (buf, src) :: rest =>
  match mod.packetRoutes (extractToken buf) with
  | none => (some (buf, src), [])
  | some source =>
    let ex := if isHandshakeFrame buf then mod.handshakeRoutes (extractToken buf)
              else some source
    let r := ReadMessage mod extractToken rest
    (r.1, (buf, ex) :: r.2)

/-- Any frame `ReadMessage` delivers to the local endpoint has no
packet-route entry for its token. -/
theorem readMessage_delivered_unrouted (mod : BridgeModule)
    (extractToken : Bytes → Token) (frames : List (Bytes × Nat))
    (b : Bytes) (s : Nat)
    (h : (ReadMessage mod extractToken frames).1 = some (b, s)) :
    mod.packetRoutes (extractToken b) = none := by
  induction frames with
  | nil => cases h
  | cons f rest ih =>
    obtain ⟨buf, src⟩ := f
    unfold ReadMessage at h
    cases hR : mod.packetRoutes (extractToken buf) with
    | none =>
      rw [hR] at h
      replace h : some (buf, src) = some (b, s) := h
      injection h with h1
      injection h1 with hb hs
      subst hb
      exact hR
    | some source =>
      rw [hR] at h
      exact ih (h : (ReadMessage mod extractToken rest).1 = some (b, s))

/-- C1: on the bridge-wrapped transport, a frame whose token has a
packet-route entry is never returned to the local endpoint: the read
result is that of the remaining frames, and the frame's bytes are
forwarded unchanged — to the handshake-route exchange when the frame
carries the `0x00 0x01` handshake sentinel, to the packet-route
exchange otherwise — while a frame whose token has no packet-route
entry is returned to the caller unmodified. -/
theorem bridge_readMessage_routes (mod : BridgeModule)
    (extractToken : Bytes → Token) (buf : Bytes) (src : Nat)
    (rest : List (Bytes × Nat)) :
    (∀ ex, mod.packetRoutes (extractToken buf) = some ex →
      (ReadMessage mod extractToken ((buf, src) :: rest)).1 =
        (ReadMessage mod extractToken rest).1 ∧
      (ReadMessage mod extractToken ((buf, src) :: rest)).2 =
        (buf, if isHandshakeFrame buf then mod.handshakeRoutes (extractToken buf)
              else some ex) :: (ReadMessage mod extractToken rest).2) ∧
    (mod.packetRoutes (extractToken buf) = none →
      ReadMessage mod extractToken ((buf, src) :: rest) = (some (buf, src), [])) ∧
    (∀ b s, (ReadMessage mod extractToken ((buf, src) :: rest)).1 = some (b, s) →
      mod.packetRoutes (extractToken b) = none) := by
  refine ⟨?_, ?_, ?_⟩
  · intro ex hex
    refine ⟨?_, ?_⟩ <;> simp only [ReadMessage, hex]
  · intro hnone
    simp only [ReadMessage, hnone]
  · exact fun b s h => readMessage_delivered_unrouted _ _ _ _ _ h

/-- C6: after the bridge handles an exchange-closed event for `x`, no
token in either table maps to `x` any more, and every token whose
packet-route or handshake-route entry referenced `x` is gone from both
tables. -/
theorem bridge_close_clears_routes (mod : BridgeModule) (x : Exchange)
    (t : Token) :
    (mod.on_exchange_closed x).packetRoutes t ≠ some x ∧
    (mod.on_exchange_closed x).handshakeRoutes t ≠ some x ∧
    ((mod.packetRoutes t = some x ∨ mod.handshakeRoutes t = some x) →
      (mod.on_exchange_closed x).packetRoutes t = none ∧
      (mod.on_exchange_closed x).handshakeRoutes t = none) := by
  unfold BridgeModule.on_exchange_closed
  by_cases h1 : mod.packetRoutes t = some x <;>
    by_cases h2 : mod.handshakeRoutes t = some x <;>
      simp [h1, h2]

/-- Concrete token extractor for the bridge witnesses: the first two
bytes of the frame. -/
def bridgeTok : Bytes → Token := fun b => b.take 2

/-- Concrete bridge fixture for the witnesses: token `[0, 1]` has a
packet route to exchange 1 (active path 100) and a handshake route to
exchange 2 (active path 200). -/
def bridgeFixture : BridgeModule :=
{ packetRoutes := fun t => if t = [0, 1] then some ⟨1, 100⟩ else none
  handshakeRoutes := fun t => if t = [0, 1] then some ⟨2, 200⟩ else none }

/-- Witness for `bridge_readMessage_routes`: the sentinel frame
`[0, 1, 7]` is forwarded to the handshake-route exchange and not
delivered; the unrouted frame `[8, 8]` is returned unmodified. -/
theorem bridge_readMessage_routes_witness :
    (ReadMessage bridgeFixture bridgeTok [([0, 1, 7], 4)]).1 = none ∧
    (ReadMessage bridgeFixture bridgeTok [([0, 1, 7], 4)]).2 =
      [([0, 1, 7], some ⟨2, 200⟩)] ∧
    ReadMessage bridgeFixture bridgeTok [([8, 8], 4)] = (some ([8, 8], 4), []) := by
  obtain ⟨hfst, hsnd⟩ :=
    (bridge_readMessage_routes bridgeFixture bridgeTok [0, 1, 7] 4 []).1
      ⟨1, 100⟩ (by decide)
  refine ⟨by rw [hfst]; rfl, by rw [hsnd]; decide, ?_⟩
  exact (bridge_readMessage_routes bridgeFixture bridgeTok [8, 8] 4 []).2.1
    (by decide)

/-- Witness for `bridge_close_clears_routes`: closing exchange 2 (the
handshake-route referent of token `[0, 1]`) removes that token from
both tables. -/
theorem bridge_close_clears_routes_witness :
    (bridgeFixture.on_exchange_closed ⟨2, 200⟩).packetRoutes [0, 1] = none ∧
    (bridgeFixture.on_exchange_closed ⟨2, 200⟩).handshakeRoutes [0, 1] = none :=
  (bridge_close_clears_routes bridgeFixture ⟨2, 200⟩ [0, 1]).2.2
    (Or.inr (by decide))

/-- Decidable equality for `Except` results. -/
instance {ε α : Type} [DecidableEq ε] [DecidableEq α] :
    DecidableEq (Except ε α) := fun x y =>
  match x, y with
  | .error a, .error b => decidable_of_iff (a = b) (by simp)
  | .error _, .ok _ => .isFalse (fun hc => Except.noConfusion hc)
  | .ok _, .error _ => .isFalse (fun hc => Except.noConfusion hc)
  | .ok a, .ok b => decidable_of_iff (a = b) (by simp)

namespace UDP

/-! ## UDP transport (from `src/transports/udp/udp_transport.go`)

`net.IP` values are modelled as 4-octet byte lists (the `udp4` family
the claims exercise), `net.IPNet` as an address/mask pair, and Go string
formatting of IPs (`net.IP.String`, dotted decimal) together with
`net.ParseIP`'s IPv4 branch are embedded executably.  The JSON layer of
`MarshalJSON`/`decodeAddress` is modelled at the level of the
`{type, ip, port}` description record those functions marshal through:
`json.Marshal` followed by `json.Unmarshal` of such a flat record is the
identity on it. -/

/-- Decimal rendering of a natural (fuel-structured; fuel `n + 1`
suffices for `n`). -/
def natToDigitsF : Nat → Nat → List Char
| 0, _ => []
| fuel + 1, n =>
  if n < 10 then [Char.ofNat (48 + n)]
  else natToDigitsF fuel (n / 10) ++ [Char.ofNat (48 + n % 10)]

/-- Decimal rendering of a natural number, most significant digit
first, no leading zeros. -/
def natToDigits (n : Nat) : List Char := natToDigitsF (n + 1) n

/-- Go `net.IP.String` for a 4-byte IPv4 address: dotted decimal.
Other lengths render to the `?`-marked form the claims never touch. -/
def ipToString : Bytes → Str
| [a, b, c, d] =>
  natToDigits a ++ '.' :: natToDigits b ++ '.' :: natToDigits c ++
    '.' :: natToDigits d
| _ => ['?']

/-- Split a character list on `'.'` separators. -/
def splitOnDot : Str → List Str
| [] => [[]]
| c :: rest =>
  if c = '.' then [] :: splitOnDot rest
  else
    match splitOnDot rest with
    | g :: gs => (c :: g) :: gs
    | [] => [[c]]

/-- Decimal digit test. -/
def isDigit (ch : Char) : Bool := '0' ≤ ch && ch ≤ '9'

/-- Value of a digit string (assuming `isDigit` holds of every char). -/
def digitsVal (cs : Str) : Nat :=
cs.foldl (fun acc c => acc * 10 + (c.toNat - 48)) 0

/-- One dotted-decimal field, per Go's `ParseIP`: non-empty, digits
only, no leading zero, value at most 255. -/
def parseOctet (cs : Str) : Option Nat :=
if cs = [] then none
else if ¬ cs.all isDigit then none
else if 1 < cs.length ∧ cs.getD 0 '0' = '0' then none
else if 255 < digitsVal cs then none
else some (digitsVal cs)

/-- Go `net.ParseIP`, IPv4 branch: four dotted-decimal fields. -/
def parseIP (s : Str) : Option Bytes :=
match splitOnDot s with
| [a, b, c, d] => do
  let va ← parseOctet a
  let vb ← parseOctet b
  let vc ← parseOctet c
  let vd ← parseOctet d
  some [va, vb, vc, vd]
| _ => none

/-- The `{type, ip, port}` JSON description record marshalled by
`addr.MarshalJSON` and unmarshalled by `decodeAddress`. -/
structure AddrDesc where
  typ : Str
  ip : Str
  port : Int
deriving DecidableEq

/-- Transport-level errors (`transports.ErrInvalidAddr`,
`io.ErrShortWrite`, `transports.ErrClosed`, other socket errors). -/
inductive TransportError where
| errInvalidAddr
| errShortWrite
| errClosed
| errOther (n : Nat)
deriving DecidableEq

/-- The UDP `addr` (hashname/zone fields omitted: `Equal` and the
writing path never consult them). -/
structure addr where
  net : Str
  ip : Bytes
  port : Int
deriving DecidableEq

/-- `addr.MarshalJSON` from `src/transports/udp/udp_transport.go`,
to the description record. -/
def MarshalJSON (a : addr) : AddrDesc := ⟨a.net, ipToString a.ip, a.port⟩

/-- `decodeAddress` from `src/transports/udp/udp_transport.go`: parse
the IP, reject a missing or unspecified IP, reject `port <= 0` and
`port >= 65535`, else build the address. -/
def decodeAddress (d : AddrDesc) : Except TransportError addr :=
match parseIP d.ip with
| none => .error .errInvalidAddr
| some octs =>
  if octs = [0, 0, 0, 0] then .error .errInvalidAddr
  else if d.port ≤ 0 ∨ 65535 ≤ d.port then .error .errInvalidAddr
  else .ok ⟨d.typ, octs, d.port⟩

/-- `addr.Equal` from `src/transports/udp/udp_transport.go`: IP and
port only. -/
def Equal (a b : addr) : Bool := a.ip == b.ip && a.port == b.port

/-- `net.IPNet`: network address and mask. -/
structure IPNet where
  ip : Bytes
  mask : Bytes
deriving DecidableEq

/-- `net.IPNet.Contains` on 4-octet addresses: masked bytes agree
(length mismatch is never contained). -/
def ipnetContains (n : IPNet) (ip : Bytes) : Bool :=
(ip.length == n.ip.length) && (ip.length == n.mask.length) &&
  (List.zip ip (List.zip n.ip n.mask)).all
    (fun p => (p.1 &&& p.2.2) == (p.2.1 &&& p.2.2))

/-- The UDP `transport`: its network family and configured destination
network (the socket handle is modelled by the send outcome passed to
`WriteMessage`). -/
structure transport where
  net : Str
  dest : IPNet

/-- A `transports.Addr` handed to `WriteMessage`: a UDP address, a nil
`*addr` inside the interface, or an address of some other transport. -/
inductive TransportAddr where
| udp (a : addr)
| udpNil
| other

/-- `transport.WriteMessage` from
`src/transports/udp/udp_transport.go`.  `res` is the outcome of the
kernel's `WriteToUDP` (bytes written, or a socket error); the returned
flag records whether that send was attempted at all. -/
def WriteMessage (t : transport) (p : Bytes) (dst : TransportAddr)
    (res : Except TransportError Nat) :
    Except TransportError Unit × Bool :=
match dst with
| .other => (.error .errInvalidAddr, false)
| .udpNil => (.error .errInvalidAddr, false)
| .udp a =>
  if a.net ≠ t.net then (.error .errInvalidAddr, false)
  else if ¬ ipnetContains t.dest a.ip then (.error .errInvalidAddr, false)
  else
    match res with
    | .error e => (.error e, true)
    | .ok n =>
      if n ≠ p.length then (.error .errShortWrite, true) else (.ok (), true)

/-! ### Dotted-decimal round trip -/

theorem octet_roundtrip : ∀ n, n < 256 →
    parseOctet (natToDigits n) = some n ∧ '.' ∉ natToDigits n := by decide

theorem splitOnDot_no_dot (xs : Str) (h : '.' ∉ xs) : splitOnDot xs = [xs] := by
  induction xs with
  | nil => rfl
  | cons c rest ih =>
    simp only [List.mem_cons, not_or] at h
    have hc : ¬ c = '.' := fun hh => h.1 hh.symm
    simp [splitOnDot, hc, ih h.2]

theorem splitOnDot_append (xs ys : Str) (h : '.' ∉ xs) :
    splitOnDot (xs ++ '.' :: ys) = xs :: splitOnDot ys := by
  induction xs with
  | nil => simp [splitOnDot]
  | cons c rest ih =>
    simp only [List.mem_cons, not_or] at h
    have hc : ¬ c = '.' := fun hh => h.1 hh.symm
    simp [splitOnDot, hc, ih h.2]

theorem parseIP_ipToString (a b c d : Nat) (ha : a < 256) (hb : b < 256)
    (hc : c < 256) (hd : d < 256) :
    parseIP (ipToString [a, b, c, d]) = some [a, b, c, d] := by
  have Ha := octet_roundtrip a ha
  have Hb := octet_roundtrip b hb
  have Hc := octet_roundtrip c hc
  have Hd := octet_roundtrip d hd
  have hform : ipToString [a, b, c, d] = natToDigits a ++ '.' ::
      (natToDigits b ++ '.' :: (natToDigits c ++ '.' :: natToDigits d)) := by
    simp [ipToString]
  have hsplit : splitOnDot (ipToString [a, b, c, d]) =
      [natToDigits a, natToDigits b, natToDigits c, natToDigits d] := by
    rw [hform, splitOnDot_append _ _ Ha.2, splitOnDot_append _ _ Hb.2,
      splitOnDot_append _ _ Hc.2, splitOnDot_no_dot _ Hd.2]
  unfold parseIP
  rw [hsplit]
  simp [Ha.1, Hb.1, Hc.1, Hd.1]

/-- Counterexample to C3 as stated: port 65535 is a valid UDP port, yet
marshalling the address `udp4 1.2.3.4:65535` and decoding the result is
rejected with `ErrInvalidAddr` (the decoder's bound is `port >= 65535`,
not `port > 65535`), so encode-then-decode does not succeed for every
valid UDP address. -/
theorem udp_roundtrip_port65535_fails :
    decodeAddress (MarshalJSON ⟨"udp4".data, [1, 2, 3, 4], 65535⟩) =
      .error .errInvalidAddr := by decide

/-- C3 (amended): for every IPv4 UDP address with a specified IP and a
port in `1 .. 65534`, marshalling to the JSON description and decoding
it back succeeds and yields an address `Equal` to the original. -/
theorem udp_addr_roundtrip (netStr : Str) (a b c d : Nat) (port : Int)
    (ha : a < 256) (hb : b < 256) (hc : c < 256) (hd : d < 256)
    (hip : ([a, b, c, d] : Bytes) ≠ [0, 0, 0, 0])
    (hp0 : 0 < port) (hp1 : port < 65535) :
    decodeAddress (MarshalJSON ⟨netStr, [a, b, c, d], port⟩) =
      .ok ⟨netStr, [a, b, c, d], port⟩ ∧
    Equal ⟨netStr, [a, b, c, d], port⟩ ⟨netStr, [a, b, c, d], port⟩ = true := by
  have hport : ¬ (port ≤ 0 ∨ 65535 ≤ port) := by omega
  constructor
  · unfold decodeAddress MarshalJSON
    simp only
    rw [parseIP_ipToString a b c d ha hb hc hd]
    simp [hip, hport]
  · simp [Equal]

/-- Witness for `udp_addr_roundtrip` at `udp4 1.2.3.4:4242`. -/
theorem udp_addr_roundtrip_witness :
    decodeAddress (MarshalJSON ⟨"udp4".data, [1, 2, 3, 4], 4242⟩) =
      .ok ⟨"udp4".data, [1, 2, 3, 4], 4242⟩ ∧
    Equal ⟨"udp4".data, [1, 2, 3, 4], 4242⟩ ⟨"udp4".data, [1, 2, 3, 4], 4242⟩
      = true :=
  by refine udp_addr_roundtrip "udp4".data 1 2 3 4 4242 ?_ ?_ ?_ ?_ ?_ ?_ ?_ <;>
    decide

/-- C10: `WriteMessage` returns `ErrInvalidAddr` without attempting a
send when the destination is not a UDP address, is a nil UDP address,
belongs to a different network family, or lies outside the configured
destination network; otherwise it attempts the send, propagates a
socket error as is, and — when the send reports `n` bytes written
(`n ≤ len(p)`) — returns `io.ErrShortWrite` exactly when `n` falls
short of the full payload. -/
theorem udp_writeMessage_spec (t : transport) (p : Bytes)
    (res : Except TransportError Nat) :
    WriteMessage t p .other res = (.error .errInvalidAddr, false) ∧
    WriteMessage t p .udpNil res = (.error .errInvalidAddr, false) ∧
    (∀ a, a.net ≠ t.net →
      WriteMessage t p (.udp a) res = (.error .errInvalidAddr, false)) ∧
    (∀ a, ipnetContains t.dest a.ip = false →
      WriteMessage t p (.udp a) res = (.error .errInvalidAddr, false)) ∧
    (∀ a n, a.net = t.net → ipnetContains t.dest a.ip = true →
      res = .ok n → n ≤ p.length →
      ((WriteMessage t p (.udp a) res).1 = .error .errShortWrite ↔
        n < p.length) ∧
      (WriteMessage t p (.udp a) res).2 = true) ∧
    (∀ a e, a.net = t.net → ipnetContains t.dest a.ip = true →
      res = .error e → WriteMessage t p (.udp a) res = (.error e, true)) := by
  refine ⟨rfl, rfl, ?_, ?_, ?_, ?_⟩
  · intro a hnet
    simp [WriteMessage, hnet]
  · intro a hcont
    by_cases hnet : a.net = t.net <;> simp [WriteMessage, hnet, hcont]
  · intro a n hnet hcont hres hlen
    subst hres
    constructor
    · by_cases hshort : n = p.length
      · simp [WriteMessage, hnet, hcont, hshort]
      · simp [WriteMessage, hnet, hcont, hshort]
        omega
    · by_cases hshort : n = p.length <;>
        simp [WriteMessage, hnet, hcont, hshort]
  · intro a e hnet hcont hres
    subst hres
    simp [WriteMessage, hnet, hcont]

/-- Witness for `udp_writeMessage_spec`: a `udp4` transport restricted
to `10.0.0.0/8`; an out-of-network destination is rejected unsent, a
short send of 2 of 3 bytes yields `io.ErrShortWrite`. -/
theorem udp_writeMessage_spec_witness :
    WriteMessage ⟨"udp4".data, ⟨[10, 0, 0, 0], [255, 0, 0, 0]⟩⟩ [1, 2, 3]
      (.udp ⟨"udp4".data, [11, 0, 0, 5], 4242⟩) (.ok 3)
      = (.error .errInvalidAddr, false) ∧
    (WriteMessage ⟨"udp4".data, ⟨[10, 0, 0, 0], [255, 0, 0, 0]⟩⟩ [1, 2, 3]
      (.udp ⟨"udp4".data, [10, 0, 0, 5], 4242⟩) (.ok 2)).1
      = .error .errShortWrite := by
  constructor
  · exact (udp_writeMessage_spec ⟨"udp4".data, ⟨[10, 0, 0, 0], [255, 0, 0, 0]⟩⟩
      [1, 2, 3] (.ok 3)).2.2.2.1 ⟨"udp4".data, [11, 0, 0, 5], 4242⟩ (by decide)
  · exact ((udp_writeMessage_spec ⟨"udp4".data, ⟨[10, 0, 0, 0], [255, 0, 0, 0]⟩⟩
      [1, 2, 3] (.ok 2)).2.2.2.2.1 ⟨"udp4".data, [10, 0, 0, 5], 4242⟩ 2 rfl
      (by decide) rfl (by decide)).1.mpr (by decide)

end UDP

namespace Telehash

/-! ## `peer_t.push_rcv_pkt` (from `src/unnamed/part_002`)

The packet header fields the dispatcher consults are `C` (channel id),
`Type` (channel type, `typ` here since `Type` is reserved) and the
optional sequence number `Seq` (`Seq.IsSet() && Seq.Get() == 0` becomes
`Seq = some 0`).  The channel table `map[string]*channel_t` is an
association list.  `make_channel` and `channel_t.push_rcv_pkt` are
repository code not under `src/`; following the spec's lifecycle
(§4.5: the responder accepts the initiator's first `seq=0` packet by
creating mirror channel state and delivering the packet to it) they are
modelled as creating the responder channel and appending the packet to
its receive buffer. -/

/-- The header fields of `pkt_t` used by `push_rcv_pkt`. -/
structure PktHdr where
  C : Str
  typ : Str
  Seq : Option Nat
deriving DecidableEq

/-- A channel packet. -/
structure Pkt where
  hdr : PktHdr
deriving DecidableEq

/-- `channel_t` state visible to the dispatcher. -/
structure channel_t where
  channel_id : Str
  channel_type : Str
  initiator : Bool
  rcvd : List Pkt
deriving DecidableEq

/-- `peer_t`: its channel table. -/
structure peer_t where
  channels : List (Str × channel_t)
deriving DecidableEq

/-- Map read `p.channels[pkt.hdr.C]`. -/
def lookupChannel : List (Str × channel_t) → Str → Option channel_t
| [], _ => none
| (id, ch) :: rest, c => if id = c then some ch else lookupChannel rest c

/-- Modelled from the spec: `make_channel` (not under `src/`) creates
the responder's mirror channel state for the given id and type. -/
def make_channel (id typ : Str) (ini : Bool) : channel_t :=
⟨id, typ, ini, []⟩

/-- Modelled from the spec: `channel_t.push_rcv_pkt` (not under `src/`)
accepts the packet into the channel's receive buffer. -/
def channelPush (ch : channel_t) (pkt : Pkt) : channel_t :=
{ ch with rcvd := ch.rcvd ++ [pkt] }

/-- Map write delivering a packet to an existing channel. -/
def deliverToChannel : List (Str × channel_t) → Str → Pkt →
    List (Str × channel_t)
| [], _, _ => []
| (id, ch) :: rest, c, pkt =>
  if id = c then (id, channelPush ch pkt) :: rest
  else (id, ch) :: deliverToChannel rest c pkt

/-- `errInvalidPkt`. -/
inductive PktError where
| errInvalidPkt
deriving DecidableEq

/-- `peer_t.push_rcv_pkt` from `src/unnamed/part_002`: reject an empty
channel id; deliver to an existing channel; otherwise open a responder
channel only for a first-in-sequence packet (`seq` set and zero) with a
non-empty type, and deliver the packet to it; reject anything else. -/
def push_rcv_pkt (p : peer_t) (pkt : Pkt) : Except PktError peer_t :=
if pkt.hdr.C = [] then .error .errInvalidPkt
else
  match lookupChannel p.channels pkt.hdr.C with
  | some _ => .ok ⟨deliverToChannel p.channels pkt.hdr.C pkt⟩
  | none =>
    if pkt.hdr.Seq = some 0 then
      if pkt.hdr.typ = [] then .error .errInvalidPkt
      else .ok ⟨(pkt.hdr.C,
        channelPush (make_channel pkt.hdr.C pkt.hdr.typ false) pkt) ::
        p.channels⟩
    else .error .errInvalidPkt

/-- C7: for an inbound packet whose channel id matches no existing
channel, a new responder channel (initiator flag false) is created with
the packet delivered to it exactly when the packet has `seq` set to 0
and a non-empty type and a non-empty channel id; in every other case —
empty channel id, `seq` absent, `seq` nonzero, or empty type —
`push_rcv_pkt` returns the invalid-packet error and the channel table
is left unchanged. -/
theorem push_rcv_pkt_dispatch (p : peer_t) (pkt : Pkt)
    (hnew : lookupChannel p.channels pkt.hdr.C = none) :
    (pkt.hdr.C ≠ [] → pkt.hdr.Seq = some 0 → pkt.hdr.typ ≠ [] →
      push_rcv_pkt p pkt = .ok ⟨(pkt.hdr.C,
        channelPush (make_channel pkt.hdr.C pkt.hdr.typ false) pkt) ::
        p.channels⟩) ∧
    (pkt.hdr.C = [] ∨ pkt.hdr.Seq ≠ some 0 ∨ pkt.hdr.typ = [] →
      push_rcv_pkt p pkt = .error .errInvalidPkt) := by
  constructor
  · intro hC hSeq hTyp
    simp [push_rcv_pkt, hC, hnew, hSeq, hTyp]
  · intro h
    rcases h with h | h | h
    · simp [push_rcv_pkt, h]
    · by_cases hC : pkt.hdr.C = []
      · simp [push_rcv_pkt, hC]
      · simp [push_rcv_pkt, hC, hnew, h]
    · by_cases hC : pkt.hdr.C = []
      · simp [push_rcv_pkt, hC]
      · by_cases hSeq : pkt.hdr.Seq = some 0
        · simp [push_rcv_pkt, hC, hnew, hSeq, h]
        · simp [push_rcv_pkt, hC, hnew, hSeq]

/-- Witness for `push_rcv_pkt_dispatch`: on a peer with no channels, a
`seq=0`, type `echo` packet on channel id `c1` opens a responder
channel holding the packet, while a `seq=1` packet is rejected. -/
theorem push_rcv_pkt_dispatch_witness :
    push_rcv_pkt ⟨[]⟩ ⟨⟨"c1".data, "echo".data, some 0⟩⟩ =
      .ok ⟨[("c1".data,
        channelPush (make_channel "c1".data "echo".data false)
          ⟨⟨"c1".data, "echo".data, some 0⟩⟩)]⟩ ∧
    push_rcv_pkt ⟨[]⟩ ⟨⟨"c1".data, "echo".data, some 1⟩⟩ =
      .error .errInvalidPkt := by
  constructor
  · exact (push_rcv_pkt_dispatch ⟨[]⟩ ⟨⟨"c1".data, "echo".data, some 0⟩⟩
      rfl).1 (by decide) rfl (by decide)
  · exact (push_rcv_pkt_dispatch ⟨[]⟩ ⟨⟨"c1".data, "echo".data, some 1⟩⟩
      rfl).2 (Or.inr (Or.inl (by decide)))

end Telehash

end Gogotelehash
